import Mathlib

/-!
Shallow embedding of `oalg`'s two online estimators (`Mean` and `gMean` in
`src/__init__.py`) over the reals.

Modelling conventions:
* A numpy value is either a Python scalar or an n-dimensional array; we model it
  as `Value`: a scalar carries one real, a tensor carries its shape (a list of
  dimension sizes, numpy's `shape` tuple) and its flat data.  `numpy.shape` of a
  scalar is `()`, i.e. `[]`; only tensors are iterable (`hasattr '__iter__'`).
* Estimator state mirrors the Python instance attributes: `count : ℕ`,
  `shape : Option (List ℕ)` (`None` = not yet established), and the two
  accumulators as `Option (List ℝ)` (`None` = never allocated).  dtype only
  influences the numeric representation, which the real-number model abstracts;
  the only dtype-related control flow (`None.astype` failing when the
  accumulators were never allocated) is covered by the accumulator match.
* `add` follows the source statement by statement and returns the post-call
  state together with `Option Err`: `some e` is a raised exception, and the
  returned state carries exactly the mutations the Python code performed before
  the raise.
* Accessors return `Option (List ℝ)`; `none` is Python's `None` ("no result").
  The scalar branch of the source returns `array.tolist()` (a bare number) and
  the array branch the array itself; both compute the same elementwise values,
  which we return as the element list, keeping the source's branch structure
  where the branches differ (the clamp in `gMean.var`).
-/

namespace Oalg

/-- A numpy-compatible value: a Python scalar or an array with a shape. -/
inductive Value where
  | scalar (x : ℝ)
  | tensor (shape : List ℕ) (data : List ℝ)

/-- `numpy.shape(value)`: `()` for a scalar, the array's shape otherwise. -/
def Value.shape : Value → List ℕ
  | .scalar _ => []
  | .tensor s _ => s

/-- The flat element list of a value (a scalar is a single element). -/
def Value.data : Value → List ℝ
  | .scalar x => [x]
  | .tensor _ d => d

/-- `hasattr(value, '__iter__')`: arrays are iterable, scalars are not. -/
def Value.isIterable : Value → Bool
  | .scalar _ => false
  | .tensor _ _ => true

/-- The exceptions the source can raise. -/
inductive Err where
  /-- `ValueError`: resumption triple partially specified. -/
  | configError
  /-- `TypeError`/`AttributeError`: arithmetic or `astype` on a `None` accumulator. -/
  | typeError
  /-- `ValueError('illegal value')`. -/
  | illegalValue
  /-- `ValueError('scalar value expected')`. -/
  | scalarExpected
  /-- `ValueError('illegal shape')`. -/
  | illegalShape
  /-- `ValueError('unable to add non-positive values')`. -/
  | domainError
  /-- `AssertionError` from `assert n == 1`. -/
  | assertionError
deriving DecidableEq

/-- `numpy.prod(shape)`: number of elements of an array of this shape. -/
def numel (sh : List ℕ) : ℕ := sh.prod

/-- `numpy.zeros(shape)` as a flat element list. -/
def zeros (sh : List ℕ) : List ℝ := List.replicate (numel sh) 0

/-- Elementwise addition (`numpy +=` on same-shape arrays). -/
def eadd (a b : List ℝ) : List ℝ := List.zipWith (· + ·) a b

/-- The score of the resumption-triple check in both constructors:
`(init_count is not None and init_count > 0) + (init_value is not None) +
(init_var is not None)`. -/
def initScore (init_value init_var : Option Value) (init_count : Option ℤ) : ℕ :=
  (if 0 < init_count.getD 0 then 1 else 0)
    + (if init_value.isSome then 1 else 0)
    + (if init_var.isSome then 1 else 0)

/-! ## The arithmetic-mean estimator (`class Mean`) -/

/-- State of a `Mean` instance: `_count`, `_shape`, `_sigma`, `_sigma2`. -/
structure MeanState where
  count : ℕ
  shape : Option (List ℕ)
  sigma : Option (List ℝ)
  sigma2 : Option (List ℝ)

namespace MeanState

/-- `Mean.__init__(shape, dtype, init_value, init_var, init_count)`.
Raises `configError` when the triple score is neither 0 nor 3; otherwise
`count = int(init_count or 0)`, and when `count` is nonzero the accumulators
are rebuilt as `sigma = count * init_value` and
`sigma2 = (count - 1) * init_var + sigma**2 / count` (elementwise); `shape`
falls back to the rebuilt accumulator's shape.  A nonzero count with a missing
`init_value`/`init_var` is the Python `TypeError` from arithmetic on `None`.
The elementwise reconstruction is exact for `init_value`/`init_var` of equal
shape; the numpy broadcast error raised on mismatched array shapes is not
rendered (theorems about successful construction guard on equal shapes, and
the resumption claims apply this only to scalar triples). -/
noncomputable def init (shape : Option (List ℕ)) (init_value init_var : Option Value)
    (init_count : Option ℤ) : Except Err MeanState :=
  if initScore init_value init_var init_count ∉ ([0, 3] : List ℕ) then
    .error .configError
  else
    let c : ℤ := init_count.getD 0
    if c = 0 then
      .ok ⟨0, shape, none, none⟩
    else
      match init_value, init_var with
      | some v, some w =>
        let sigma := v.data.map (fun x => (c : ℝ) * x)
        let sigma2 := List.zipWith
          (fun y sx => ((c : ℝ) - 1) * y + sx ^ 2 / (c : ℝ)) w.data sigma
        .ok ⟨c.toNat, (match shape with | some sh => some sh | none => some v.shape),
          some sigma, some sigma2⟩
      | _, _ => .error .typeError

/-- A fresh `Mean()` with no arguments. -/
def fresh : MeanState := ⟨0, none, none, none⟩

/-- The accumulation tail of `Mean.add`: `sigma += value`,
`sigma2 += value**2`, `count += 1`.  When an accumulator is `None`
(never allocated), the in-place add raises before mutating anything —
as does the preceding `astype` call on a `None` accumulator. -/
def addAccum (s : MeanState) (v : Value) : MeanState × Option Err :=
  match s.sigma, s.sigma2 with
  | some a1, some a2 =>
    (⟨s.count + 1, s.shape, some (eadd a1 v.data),
      some (eadd a2 (v.data.map (fun x => x ^ 2)))⟩, none)
  | _, _ => (s, some .typeError)

/-- `Mean.add(value)`: shape checks (and first-call shape inference with
zeroed accumulators), then accumulation. -/
def add (s : MeanState) (v : Value) : MeanState × Option Err :=
  match s.shape with
  | none =>
    if s.count = 0 then
      addAccum ⟨s.count, some v.shape, some (zeros v.shape), some (zeros v.shape)⟩ v
    else
      (s, some .illegalValue)
  | some sh =>
    if sh = [] then
      if v.isIterable then (s, some .scalarExpected) else addAccum s v
    else
      if v.shape ≠ sh then (s, some .illegalShape) else addAccum s v

/-- `Mean.mean()`: `sigma / count`, or `None` when `count == 0`. -/
noncomputable def mean (s : MeanState) : Option (List ℝ) :=
  if s.count = 0 then none
  else s.sigma.map (fun a => a.map (fun x => x / (s.count : ℝ)))

/-- `Mean.var()`: `None` when `count == 0`; zero when `count == 1`; otherwise
`sigma2/(count-1) - sigma**2/count/(count-1)` elementwise. -/
noncomputable def var (s : MeanState) : Option (List ℝ) :=
  if s.count = 0 then none
  else if 1 < s.count then
    match s.sigma, s.sigma2 with
    | some a1, some a2 =>
      some (List.zipWith
        (fun y x => y / ((s.count : ℝ) - 1) - x ^ 2 / (s.count : ℝ) / ((s.count : ℝ) - 1))
        a2 a1)
    | _, _ => none
  else
    s.sigma.map (fun a => a.map (fun _ => (0 : ℝ)))

/-- `Mean.std()`: `sqrt(var())`, or `None` when the variance is unavailable. -/
noncomputable def std (s : MeanState) : Option (List ℝ) :=
  (s.var).map (fun l => l.map Real.sqrt)

/-- `Mean.stderr()`: `sqrt(var/count)`, `None` when `var` is `None` or `count < 1`. -/
noncomputable def stderr (s : MeanState) : Option (List ℝ) :=
  match s.var with
  | none => none
  | some l =>
    if s.count < 1 then none
    else some (l.map (fun x => Real.sqrt (x / (s.count : ℝ))))

/-- `Mean.mspair()`: the pair `(mean(), stderr())`. -/
noncomputable def mspair (s : MeanState) : Option (List ℝ) × Option (List ℝ) :=
  (s.mean, s.stderr)

/-- `Mean.ci(n)`: asserts `n == 1`, then returns `(stderr(), stderr())`. -/
noncomputable def ci (s : MeanState) (n : ℤ) :
    Except Err (Option (List ℝ) × Option (List ℝ)) :=
  if n = 1 then .ok (s.stderr, s.stderr) else .error .assertionError

/-- Feeding a list of scalars through repeated `add` calls (the external
iteration helper), continuing with the post-call state. -/
def runScalars (s : MeanState) (xs : List ℝ) : MeanState :=
  xs.foldl (fun st x => (add st (.scalar x)).1) s

/-- Feeding a list of arbitrary values through repeated `add` calls. -/
def runValues (s : MeanState) (vs : List Value) : MeanState :=
  vs.foldl (fun st v => (add st v).1) s

end MeanState

/-! ## The geometric-mean estimator (`class gMean`) -/

/-- State of a `gMean` instance: `_count`, `_shape`, `_gamma`, `_gamma2`. -/
structure GMeanState where
  count : ℕ
  shape : Option (List ℕ)
  gamma : Option (List ℝ)
  gamma2 : Option (List ℝ)

namespace GMeanState

/-- `gMean.__init__(shape, dtype, init_value, init_var, init_count)`.
Same triple check as `Mean`; when `count` is nonzero the log-space
accumulators are rebuilt as `gamma = count * log(init_value)` and
`gamma2 = (count - 1) * init_var / exp(2*gamma/count) + gamma**2 / count`
(elementwise).  As for `Mean.init`, the reconstruction is exact for
`init_value`/`init_var` of equal shape; the numpy broadcast error on
mismatched array shapes is not rendered. -/
noncomputable def init (shape : Option (List ℕ)) (init_value init_var : Option Value)
    (init_count : Option ℤ) : Except Err GMeanState :=
  if initScore init_value init_var init_count ∉ ([0, 3] : List ℕ) then
    .error .configError
  else
    let c : ℤ := init_count.getD 0
    if c = 0 then
      .ok ⟨0, shape, none, none⟩
    else
      match init_value, init_var with
      | some v, some w =>
        let gamma := v.data.map (fun x => (c : ℝ) * Real.log x)
        let gamma2 := List.zipWith
          (fun y g => ((c : ℝ) - 1) * y / Real.exp (2 * g / (c : ℝ)) + g ^ 2 / (c : ℝ))
          w.data gamma
        .ok ⟨c.toNat, (match shape with | some sh => some sh | none => some v.shape),
          some gamma, some gamma2⟩
      | _, _ => .error .typeError

/-- A fresh `gMean()` with no arguments. -/
def fresh : GMeanState := ⟨0, none, none, none⟩

/-- The accumulation tail of `gMean.add`: `gamma += log(value)`,
`gamma2 += log(value)**2`, `count += 1`; raises when an accumulator was
never allocated, exactly as in `Mean.addAccum`. -/
noncomputable def addAccum (s : GMeanState) (v : Value) : GMeanState × Option Err :=
  match s.gamma, s.gamma2 with
  | some a1, some a2 =>
    (⟨s.count + 1, s.shape, some (eadd a1 (v.data.map Real.log)),
      some (eadd a2 (v.data.map (fun x => Real.log x ^ 2)))⟩, none)
  | _, _ => (s, some .typeError)

/-- `gMean.add(value)`: first `if numpy.any(value <= 0): raise`, then the
same shape checks and inference as `Mean.add`, then log-space accumulation. -/
noncomputable def add (s : GMeanState) (v : Value) : GMeanState × Option Err :=
  if ∃ x ∈ v.data, x ≤ 0 then (s, some .domainError)
  else
    match s.shape with
    | none =>
      if s.count = 0 then
        addAccum ⟨s.count, some v.shape, some (zeros v.shape), some (zeros v.shape)⟩ v
      else
        (s, some .illegalValue)
    | some sh =>
      if sh = [] then
        if v.isIterable then (s, some .scalarExpected) else addAccum s v
      else
        if v.shape ≠ sh then (s, some .illegalShape) else addAccum s v

/-- `gMean.mean()`: `exp(gamma / count)`, or `None` when `count == 0`. -/
noncomputable def mean (s : GMeanState) : Option (List ℝ) :=
  if s.count = 0 then none
  else s.gamma.map (fun a => a.map (fun x => Real.exp (x / (s.count : ℝ))))

/-- The raw (unclamped) variance recurrence of `gMean.var` for `count > 1`:
`exp(2*gamma/count) * (gamma2/(count-1) - gamma**2/count/(count-1))`
elementwise. -/
noncomputable def rawVar (c : ℕ) (g g2 : List ℝ) : List ℝ :=
  List.zipWith
    (fun y x => Real.exp (2 * x / (c : ℝ))
      * (y / ((c : ℝ) - 1) - x ^ 2 / (c : ℝ) / ((c : ℝ) - 1)))
    g2 g

/-- `gMean.var()`: `None` when `count == 0`; zero when `count == 1`; otherwise
the raw recurrence with negative results forced to zero — the scalar branch
returns `result if result > 0 else dtype(0)`, the array branch executes
`result[result < 0] = 0`. -/
noncomputable def var (s : GMeanState) : Option (List ℝ) :=
  if s.count = 0 then none
  else if 1 < s.count then
    match s.gamma, s.gamma2 with
    | some a1, some a2 =>
      if s.shape = some [] then
        some ((rawVar s.count a1 a2).map (fun r => if 0 < r then r else 0))
      else
        some ((rawVar s.count a1 a2).map (fun r => if r < 0 then 0 else r))
    | _, _ => none
  else
    s.gamma.map (fun a => a.map (fun _ => (0 : ℝ)))

/-- `gMean.std()`: `sqrt(var())`, or `None` when the variance is unavailable. -/
noncomputable def std (s : GMeanState) : Option (List ℝ) :=
  (s.var).map (fun l => l.map Real.sqrt)

/-- `gMean.stderr()`: `None` when `var` is `None` or `count < 1`; otherwise
`std() / sqrt(count - 1)`. -/
noncomputable def stderr (s : GMeanState) : Option (List ℝ) :=
  match s.var with
  | none => none
  | some _ =>
    if s.count < 1 then none
    else (s.std).map (fun l => l.map (fun x => x / Real.sqrt ((s.count : ℝ) - 1)))

/-- `gMean.mspair()`: the pair `(mean(), stderr())`. -/
noncomputable def mspair (s : GMeanState) : Option (List ℝ) × Option (List ℝ) :=
  (s.mean, s.stderr)

/-- `gMean.ci(n)`: asserts `n == 1`, then returns `(stderr(), stderr())`. -/
noncomputable def ci (s : GMeanState) (n : ℤ) :
    Except Err (Option (List ℝ) × Option (List ℝ)) :=
  if n = 1 then .ok (s.stderr, s.stderr) else .error .assertionError

/-- Feeding a list of scalars through repeated `add` calls. -/
noncomputable def runScalars (s : GMeanState) (xs : List ℝ) : GMeanState :=
  xs.foldl (fun st x => (add st (.scalar x)).1) s

/-- Feeding a list of arbitrary values through repeated `add` calls. -/
noncomputable def runValues (s : GMeanState) (vs : List Value) : GMeanState :=
  vs.foldl (fun st v => (add st v).1) s

end GMeanState

/-! ## Batch reference definitions (from the specification's words) -/

/-- Modelled from the spec: the batch sample mean of a finite sequence. -/
noncomputable def batchMean (xs : List ℝ) : ℝ := xs.sum / (xs.length : ℝ)

/-- Modelled from the spec: the unbiased batch sample variance, the sum of
squared deviations from the mean divided by `N - 1`, defined as zero when
`N == 1`. -/
noncomputable def batchVar (xs : List ℝ) : ℝ :=
  if xs.length = 1 then 0
  else (xs.map (fun x => (x - batchMean xs) ^ 2)).sum / ((xs.length : ℝ) - 1)

/-- Modelled from the spec: the batch geometric mean `exp(mean(log(values)))`. -/
noncomputable def batchGeoMean (xs : List ℝ) : ℝ :=
  Real.exp (batchMean (xs.map Real.log))

/-! ## Helper lemmas -/

lemma sum_map_sq_sub (m : ℝ) (xs : List ℝ) :
    (xs.map (fun x => (x - m) ^ 2)).sum
      = (xs.map (fun x => x ^ 2)).sum - 2 * m * xs.sum + (xs.length : ℝ) * m ^ 2 := by
  induction xs with
  | nil => simp
  | cons a t ih =>
    simp only [List.map_cons, List.sum_cons, List.length_cons, ih]
    push_cast
    ring

lemma sum_map_sq_nonneg (xs : List ℝ) : 0 ≤ (xs.map (fun x => x ^ 2)).sum := by
  apply List.sum_nonneg
  intro y hy
  obtain ⟨x, -, rfl⟩ := List.mem_map.mp hy
  positivity

/-- Cauchy–Schwarz for list sums: `(Σ x)² ≤ N · Σ x²`. -/
lemma sq_sum_le_length_mul_sum_sq (xs : List ℝ) :
    xs.sum ^ 2 ≤ (xs.length : ℝ) * (xs.map (fun x => x ^ 2)).sum := by
  induction xs with
  | nil => simp
  | cons a t ih =>
    simp only [List.sum_cons, List.map_cons, List.length_cons]
    rcases List.eq_nil_or_concat t with rfl | -
    · simp
    · have hq := sum_map_sq_nonneg t
      have hn : (1 : ℝ) ≤ (t.length : ℝ) ∨ t.length = 0 := by
        rcases Nat.eq_zero_or_pos t.length with h | h
        · exact Or.inr h
        · exact Or.inl (by exact_mod_cast h)
      rcases hn with hn | hn
      · push_cast
        nlinarith [sq_nonneg ((t.length : ℝ) * a - t.sum), ih, hq,
          sq_nonneg (a - t.sum), sq_nonneg (a + t.sum)]
      · rw [List.length_eq_zero] at hn
        subst hn
        simp

namespace MeanState

lemma add_scalar_cfg (n : ℕ) (a b x : ℝ) :
    add ⟨n, some [], some [a], some [b]⟩ (.scalar x)
      = (⟨n + 1, some [], some [a + x], some [b + x ^ 2]⟩, none) := by
  simp [add, addAccum, eadd, Value.isIterable, Value.data]

lemma runScalars_cfg (xs : List ℝ) : ∀ (n : ℕ) (a b : ℝ),
    runScalars ⟨n, some [], some [a], some [b]⟩ xs
      = ⟨n + xs.length, some [], some [a + xs.sum],
         some [b + (xs.map (fun x => x ^ 2)).sum]⟩ := by
  induction xs with
  | nil => intro n a b; simp [runScalars]
  | cons x t ih =>
    intro n a b
    simp only [runScalars, List.foldl_cons] at ih ⊢
    rw [add_scalar_cfg, ih]
    simp only [List.length_cons, List.sum_cons, List.map_cons, mk.injEq,
      Option.some.injEq, List.cons.injEq, and_true, true_and]
    refine ⟨by omega, by ring, by ring⟩

lemma runScalars_fresh (x : ℝ) (t : List ℝ) :
    runScalars fresh (x :: t)
      = ⟨t.length + 1, some [], some [(x :: t).sum],
         some [((x :: t).map (fun y => y ^ 2)).sum]⟩ := by
  have h1 : (add fresh (.scalar x)).1 = ⟨1, some [], some [x], some [x ^ 2]⟩ := by
    simp [add, fresh, addAccum, zeros, numel, eadd, Value.data, Value.shape]
  simp only [runScalars, List.foldl_cons] at *
  rw [h1]
  have := runScalars_cfg t 1 x (x ^ 2)
  simp only [runScalars] at this
  rw [this]
  simp only [List.length_cons, List.sum_cons, List.map_cons, mk.injEq,
    Option.some.injEq, List.cons.injEq, and_true, true_and]
  omega

end MeanState

namespace GMeanState

lemma gadd_scalar_cfg (n : ℕ) (a b x : ℝ) (hx : 0 < x) :
    add ⟨n, some [], some [a], some [b]⟩ (.scalar x)
      = (⟨n + 1, some [], some [a + Real.log x], some [b + Real.log x ^ 2]⟩, none) := by
  simp [add, hx.not_le, addAccum, eadd, Value.isIterable, Value.data]

lemma grunScalars_cfg (xs : List ℝ) : ∀ (n : ℕ) (a b : ℝ), (∀ x ∈ xs, 0 < x) →
    runScalars ⟨n, some [], some [a], some [b]⟩ xs
      = ⟨n + xs.length, some [], some [a + (xs.map Real.log).sum],
         some [b + (xs.map (fun x => Real.log x ^ 2)).sum]⟩ := by
  induction xs with
  | nil => intro n a b _; simp [runScalars]
  | cons x t ih =>
    intro n a b hpos
    simp only [runScalars, List.foldl_cons] at ih ⊢
    rw [gadd_scalar_cfg n a b x (hpos x (by simp)),
      ih (n + 1) _ _ (fun y hy => hpos y (by simp [hy]))]
    simp only [List.length_cons, List.sum_cons, List.map_cons, mk.injEq,
      Option.some.injEq, List.cons.injEq, and_true, true_and]
    refine ⟨by omega, by ring, by ring⟩

lemma grunScalars_fresh (x : ℝ) (t : List ℝ) (hpos : ∀ y ∈ x :: t, 0 < y) :
    runScalars fresh (x :: t)
      = ⟨t.length + 1, some [], some [((x :: t).map Real.log).sum],
         some [((x :: t).map (fun y => Real.log y ^ 2)).sum]⟩ := by
  have hx : 0 < x := hpos x (by simp)
  have h1 : (add fresh (.scalar x)).1
      = ⟨1, some [], some [Real.log x], some [Real.log x ^ 2]⟩ := by
    simp [add, fresh, hx.not_le, addAccum, zeros, numel, eadd, Value.data, Value.shape]
  simp only [runScalars, List.foldl_cons] at *
  rw [h1]
  have := grunScalars_cfg t 1 (Real.log x) (Real.log x ^ 2)
    (fun y hy => hpos y (by simp [hy]))
  simp only [runScalars] at this
  rw [this]
  simp only [List.length_cons, List.sum_cons, List.map_cons, mk.injEq,
    Option.some.injEq, List.cons.injEq, and_true, true_and]
  omega

end GMeanState

lemma eadd_zeros (l : List ℝ) : ∀ n, l.length = n → eadd (List.replicate n 0) l = l := by
  induction l with
  | nil => intro n h; simp [eadd]
  | cons a t ih =>
    intro n h
    cases n with
    | zero => simp at h
    | succ k =>
      simp only [List.replicate_succ, eadd, List.zipWith_cons_cons, zero_add,
        List.cons.injEq, true_and]
      exact ih k (by simpa using h)

lemma batchVar_one (xs : List ℝ) (h : xs.length = 1) : batchVar xs = 0 := by
  simp [batchVar, h]

/-- The spec's sum-of-squared-deviations variance equals the code's
`sigma2/(N-1) - sigma**2/N/(N-1)` form when `N ≥ 2`. -/
lemma batchVar_eq_code (xs : List ℝ) (h2 : 2 ≤ xs.length) :
    batchVar xs = (xs.map (fun x => x ^ 2)).sum / ((xs.length : ℝ) - 1)
      - xs.sum ^ 2 / (xs.length : ℝ) / ((xs.length : ℝ) - 1) := by
  have hne : xs.length ≠ 1 := by omega
  have h2' : (2 : ℝ) ≤ (xs.length : ℝ) := by exact_mod_cast h2
  have hn0 : (xs.length : ℝ) ≠ 0 := by linarith
  have hn1 : (xs.length : ℝ) - 1 ≠ 0 := by linarith
  rw [batchVar, if_neg hne, sum_map_sq_sub (batchMean xs) xs, batchMean]
  field_simp
  ring

namespace MeanState

lemma mean_cfg (n : ℕ) (hn : n ≠ 0) (sh : Option (List ℕ)) (a b : ℝ) :
    mean ⟨n, sh, some [a], some [b]⟩ = some [a / (n : ℝ)] := by
  simp [mean, hn]

lemma var_cfg (n : ℕ) (hn : 1 < n) (sh : Option (List ℕ)) (a b : ℝ) :
    var ⟨n, sh, some [a], some [b]⟩
      = some [b / ((n : ℝ) - 1) - a ^ 2 / (n : ℝ) / ((n : ℝ) - 1)] := by
  simp [var, hn, show n ≠ 0 by omega]

end MeanState

namespace GMeanState

lemma gmean_cfg (n : ℕ) (hn : n ≠ 0) (sh : Option (List ℕ)) (a b : ℝ) :
    mean ⟨n, sh, some [a], some [b]⟩ = some [Real.exp (a / (n : ℝ))] := by
  simp [mean, hn]

lemma var_scalar_cfg (n : ℕ) (hn : 1 < n) (a b : ℝ) :
    var ⟨n, some [], some [a], some [b]⟩
      = some [if 0 < Real.exp (2 * a / (n : ℝ))
            * (b / ((n : ℝ) - 1) - a ^ 2 / (n : ℝ) / ((n : ℝ) - 1)) then
          Real.exp (2 * a / (n : ℝ))
            * (b / ((n : ℝ) - 1) - a ^ 2 / (n : ℝ) / ((n : ℝ) - 1))
        else 0] := by
  simp [var, rawVar, hn, show n ≠ 0 by omega]

end GMeanState

lemma MeanState.add_fresh (v : Value) (hv : v.data.length = numel v.shape) :
    MeanState.add .fresh v
      = (⟨1, some v.shape, some v.data, some (v.data.map (fun x => x ^ 2))⟩, none) := by
  have h1 := eadd_zeros v.data (numel v.shape) hv
  have h2 := eadd_zeros (v.data.map (fun x => x ^ 2)) (numel v.shape) (by simpa using hv)
  simp [MeanState.add, MeanState.fresh, MeanState.addAccum, zeros, h1, h2]

lemma GMeanState.gadd_fresh (v : Value) (hv : v.data.length = numel v.shape)
    (hpos : ∀ x ∈ v.data, 0 < x) :
    GMeanState.add .fresh v
      = (⟨1, some v.shape, some (v.data.map Real.log),
          some (v.data.map (fun x => Real.log x ^ 2))⟩, none) := by
  have hnp : ¬ ∃ x ∈ v.data, x ≤ 0 := by
    push_neg
    exact hpos
  have h1 := eadd_zeros (v.data.map Real.log) (numel v.shape) (by simpa using hv)
  have h2 := eadd_zeros (v.data.map (fun x => Real.log x ^ 2)) (numel v.shape)
    (by simpa using hv)
  simp [GMeanState.add, GMeanState.fresh, GMeanState.addAccum, zeros, hnp, h1, h2]

lemma MeanState.runScalars_append (s : MeanState) (ys zs : List ℝ) :
    MeanState.runScalars s (ys ++ zs)
      = MeanState.runScalars (MeanState.runScalars s ys) zs := by
  simp [MeanState.runScalars, List.foldl_append]

lemma GMeanState.grunScalars_append (s : GMeanState) (ys zs : List ℝ) :
    GMeanState.runScalars s (ys ++ zs)
      = GMeanState.runScalars (GMeanState.runScalars s ys) zs := by
  simp [GMeanState.runScalars, List.foldl_append]

/-- Saving `(count, mean, var)` of a scalar-configured arithmetic state and
reconstructing through the resumption constructor rebuilds the exact same
state (`Q = S²` is the `count == 1` case, where the stored variance is the
reported zero). -/
lemma MeanState.resume_cfg (n : ℕ) (hn : 1 ≤ n) (S Q m v : ℝ)
    (hm : MeanState.mean ⟨n, some [], some [S], some [Q]⟩ = some [m])
    (hv : MeanState.var ⟨n, some [], some [S], some [Q]⟩ = some [v])
    (hQ1 : n = 1 → Q = S ^ 2) :
    MeanState.init none (some (.scalar m)) (some (.scalar v)) (some (n : ℤ))
      = .ok ⟨n, some [], some [S], some [Q]⟩ := by
  have hn0 : ((n : ℕ) : ℝ) ≠ 0 := Nat.cast_ne_zero.mpr (by omega)
  rw [MeanState.mean_cfg _ (by omega)] at hm
  have hm' : m = S / (n : ℝ) := by simpa using hm.symm
  have hv' : ((n : ℝ) - 1) * v + ((n : ℝ) * m) ^ 2 / (n : ℝ) = Q := by
    rcases eq_or_lt_of_le hn with h1 | h1
    · have hQS := hQ1 h1.symm
      have hv0 : v = 0 := by
        rw [show MeanState.var ⟨n, some [], some [S], some [Q]⟩ = some [(0 : ℝ)] by
          simp [MeanState.var, ← h1]] at hv
        simpa using hv.symm
      rw [hm', hv0, hQS, ← h1]
      norm_num
    · rw [MeanState.var_cfg _ h1] at hv
      have hv0 : v = Q / ((n : ℝ) - 1) - S ^ 2 / (n : ℝ) / ((n : ℝ) - 1) := by
        simpa using hv.symm
      have hn1 : (n : ℝ) - 1 ≠ 0 := by
        have : (2 : ℝ) ≤ (n : ℝ) := by exact_mod_cast (by omega : 2 ≤ n)
        linarith
      rw [hm', hv0]
      field_simp
      ring
  have hsc : initScore (some (Value.scalar m)) (some (Value.scalar v))
      (some (n : ℤ)) = 3 := by
    simp [initScore, show (0 : ℤ) < (n : ℤ) from by exact_mod_cast (by omega : 0 < n)]
  have hc0 : ((n : ℕ) : ℤ) ≠ 0 := by exact_mod_cast (by omega : n ≠ 0)
  simp only [MeanState.init, hsc, Option.getD_some]
  rw [if_neg (by simp), if_neg hc0]
  simp only [Value.data, Value.shape, List.map_cons, List.map_nil,
    List.zipWith_cons_cons, List.zipWith_nil_right, Except.ok.injEq, MeanState.mk.injEq]
  refine ⟨by simp, trivial, ?_, ?_⟩
  · have h : ((n : ℕ) : ℝ) * m = S := by
      rw [hm']
      field_simp
    simp only [Int.cast_natCast]
    rw [h]
  · simp only [Int.cast_natCast]
    rw [hv']

/-- Saving `(count, mean, var)` of a scalar-configured geometric state and
reconstructing through the resumption constructor rebuilds the exact same
log-space state.  `hCS` is the Cauchy–Schwarz bound satisfied by any state
actually produced by feeding observations (`L = Σ log x`, `M = Σ log²x`),
which makes the variance clamp the identity, and `hM1` is the `count == 1`
case. -/
lemma GMeanState.gresume_cfg (n : ℕ) (hn : 1 ≤ n) (L M m v : ℝ)
    (hCS : L ^ 2 ≤ (n : ℝ) * M)
    (hM1 : n = 1 → M = L ^ 2)
    (hm : GMeanState.mean ⟨n, some [], some [L], some [M]⟩ = some [m])
    (hv : GMeanState.var ⟨n, some [], some [L], some [M]⟩ = some [v]) :
    GMeanState.init none (some (.scalar m)) (some (.scalar v)) (some (n : ℤ))
      = .ok ⟨n, some [], some [L], some [M]⟩ := by
  have hn0 : ((n : ℕ) : ℝ) ≠ 0 := Nat.cast_ne_zero.mpr (by omega)
  rw [GMeanState.gmean_cfg _ (by omega)] at hm
  have hm' : m = Real.exp (L / (n : ℝ)) := by simpa using hm.symm
  have hlog : Real.log m = L / (n : ℝ) := by rw [hm', Real.log_exp]
  have hg : (n : ℝ) * Real.log m = L := by
    rw [hlog]
    field_simp
  have hv' : ((n : ℝ) - 1) * v / Real.exp (2 * ((n : ℝ) * Real.log m) / (n : ℝ))
      + ((n : ℝ) * Real.log m) ^ 2 / (n : ℝ) = M := by
    rw [hg]
    rcases eq_or_lt_of_le hn with h1 | h1
    · have hM := hM1 h1.symm
      have hv0 : v = 0 := by
        rw [show GMeanState.var ⟨n, some [], some [L], some [M]⟩ = some [(0 : ℝ)] by
          simp [GMeanState.var, ← h1]] at hv
        simpa using hv.symm
      rw [hv0, hM, ← h1]
      norm_num
    · rw [GMeanState.var_scalar_cfg _ h1] at hv
      have hnpos : (0 : ℝ) < (n : ℝ) := by positivity
      have hn1 : (n : ℝ) - 1 ≠ 0 := by
        have : (2 : ℝ) ≤ (n : ℝ) := by exact_mod_cast (by omega : 2 ≤ n)
        linarith
      have hn1' : (0 : ℝ) ≤ (n : ℝ) - 1 := by
        have : (1 : ℝ) ≤ (n : ℝ) := by exact_mod_cast hn
        linarith
      have hw : 0 ≤ M / ((n : ℝ) - 1) - L ^ 2 / (n : ℝ) / ((n : ℝ) - 1) := by
        have hL : L ^ 2 / (n : ℝ) ≤ M := by
          rw [div_le_iff₀ hnpos]
          linarith [hCS]
        have hsplit : M / ((n : ℝ) - 1) - L ^ 2 / (n : ℝ) / ((n : ℝ) - 1)
            = (M - L ^ 2 / (n : ℝ)) / ((n : ℝ) - 1) := by
          ring
        rw [hsplit]
        exact div_nonneg (by linarith) hn1'
      have hraw : 0 ≤ Real.exp (2 * L / (n : ℝ))
          * (M / ((n : ℝ) - 1) - L ^ 2 / (n : ℝ) / ((n : ℝ) - 1)) :=
        mul_nonneg (Real.exp_pos _).le hw
      have hv0 : v = Real.exp (2 * L / (n : ℝ))
          * (M / ((n : ℝ) - 1) - L ^ 2 / (n : ℝ) / ((n : ℝ) - 1)) := by
        rcases lt_or_eq_of_le hraw with hlt | heq
        · rw [if_pos hlt] at hv
          simpa using hv.symm
        · rw [if_neg (not_lt.mpr heq.ge)] at hv
          simpa [← heq] using hv.symm
      rw [hv0]
      have hE : Real.exp (2 * L / (n : ℝ)) ≠ 0 := Real.exp_ne_zero _
      field_simp
      ring
  have hsc : initScore (some (Value.scalar m)) (some (Value.scalar v))
      (some (n : ℤ)) = 3 := by
    simp [initScore, show (0 : ℤ) < (n : ℤ) from by exact_mod_cast (by omega : 0 < n)]
  have hc0 : ((n : ℕ) : ℤ) ≠ 0 := by exact_mod_cast (by omega : n ≠ 0)
  simp only [GMeanState.init, hsc, Option.getD_some]
  rw [if_neg (by simp), if_neg hc0]
  simp only [Value.data, Value.shape, List.map_cons, List.map_nil,
    List.zipWith_cons_cons, List.zipWith_nil_right, Except.ok.injEq, GMeanState.mk.injEq]
  refine ⟨by simp, trivial, ?_, ?_⟩
  · simp only [Int.cast_natCast]
    rw [hg]
  · simp only [Int.cast_natCast]
    rw [hv']

/-! ## Claims -/

/-- C1: after `N ≥ 1` accepted `add` calls the online estimators agree with
the batch reference definitions: the arithmetic estimator's `mean()`/`var()`
equal the batch sample mean and the unbiased sample variance (zero at
`N == 1`), the geometric estimator's `mean()` equals `exp(mean(log(values)))`,
and after a single `add(x)` both estimators return `mean() == x` elementwise
and `variance() == 0`. -/
theorem C1_online_equals_batch (xs : List ℝ) (hxs : xs ≠ []) :
    (MeanState.runScalars .fresh xs).mean = some [batchMean xs]
    ∧ (MeanState.runScalars .fresh xs).var = some [batchVar xs]
    ∧ ((∀ x ∈ xs, 0 < x) →
        (GMeanState.runScalars .fresh xs).mean = some [batchGeoMean xs])
    ∧ (∀ v : Value, v.data.length = numel v.shape →
        (MeanState.add .fresh v).1.mean = some v.data
          ∧ (MeanState.add .fresh v).1.var = some (v.data.map (fun _ => (0 : ℝ))))
    ∧ (∀ v : Value, v.data.length = numel v.shape → (∀ x ∈ v.data, 0 < x) →
        (GMeanState.add .fresh v).1.mean = some v.data
          ∧ (GMeanState.add .fresh v).1.var = some (v.data.map (fun _ => (0 : ℝ)))) := by
  obtain ⟨x, t, rfl⟩ := List.exists_cons_of_ne_nil hxs
  refine ⟨?_, ?_, ?_, ?_, ?_⟩
  · rw [MeanState.runScalars_fresh, MeanState.mean_cfg _ (by omega)]
    simp [batchMean]
  · rcases t with - | ⟨y, t'⟩
    · rw [MeanState.runScalars_fresh]
      simp [MeanState.var, batchVar]
    · rw [MeanState.runScalars_fresh, MeanState.var_cfg _ (by simp),
        batchVar_eq_code _ (by simp)]
      simp only [List.length_cons, Option.some.injEq, List.cons.injEq, and_true]
  · intro hpos
    rw [GMeanState.grunScalars_fresh _ _ hpos, GMeanState.gmean_cfg _ (by omega)]
    simp [batchGeoMean, batchMean]
  · intro v hv
    rw [MeanState.add_fresh v hv]
    constructor
    · simp [MeanState.mean]
    · simp [MeanState.var]
  · intro v hv hpos
    rw [GMeanState.gadd_fresh v hv hpos]
    constructor
    · simp only [GMeanState.mean, Nat.cast_one, div_one, List.map_map,
      Option.some.injEq, if_neg one_ne_zero, Option.map_some]
      have h := List.map_congr_left
        (fun x hx => Real.exp_log (hpos x hx) :
          ∀ x ∈ v.data, (Real.exp ∘ Real.log) x = id x)
      simpa using h
    · simp [GMeanState.var, List.map_map, Function.comp]

/-- C2: resumption is equivalent to an uninterrupted run.  Splitting a scalar
sequence into two chunks, running chunk 1, saving `(count, mean, variance)`,
constructing a new estimator of the same kind from that triple and feeding
chunk 2, yields the same final `mean()`/`var()` as one uninterrupted run; and
immediately after resumption construction `mean()`/`var()` return the saved
values exactly.  Both estimators. -/
theorem C2_resumption_equivalence (ys zs : List ℝ) (hys : ys ≠ []) :
    (∀ m v : ℝ,
      (MeanState.runScalars .fresh ys).mean = some [m] →
      (MeanState.runScalars .fresh ys).var = some [v] →
      ∃ s2, MeanState.init none (some (.scalar m)) (some (.scalar v))
          (some (ys.length : ℤ)) = .ok s2
        ∧ s2.mean = some [m] ∧ s2.var = some [v]
        ∧ (MeanState.runScalars s2 zs).mean
            = (MeanState.runScalars .fresh (ys ++ zs)).mean
        ∧ (MeanState.runScalars s2 zs).var
            = (MeanState.runScalars .fresh (ys ++ zs)).var)
    ∧ ((∀ x ∈ ys, 0 < x) → ∀ m v : ℝ,
      (GMeanState.runScalars .fresh ys).mean = some [m] →
      (GMeanState.runScalars .fresh ys).var = some [v] →
      ∃ s2, GMeanState.init none (some (.scalar m)) (some (.scalar v))
          (some (ys.length : ℤ)) = .ok s2
        ∧ s2.mean = some [m] ∧ s2.var = some [v]
        ∧ (GMeanState.runScalars s2 zs).mean
            = (GMeanState.runScalars .fresh (ys ++ zs)).mean
        ∧ (GMeanState.runScalars s2 zs).var
            = (GMeanState.runScalars .fresh (ys ++ zs)).var) := by
  obtain ⟨x, t, rfl⟩ := List.exists_cons_of_ne_nil hys
  constructor
  · intro m v hm hv
    rw [MeanState.runScalars_fresh] at hm hv
    have hq : t.length + 1 = 1 →
        ((x :: t).map (fun y => y ^ 2)).sum = ((x :: t).sum) ^ 2 := by
      intro h1
      have ht : t = [] := List.length_eq_zero.mp (by omega)
      subst ht
      simp
    have h := MeanState.resume_cfg (t.length + 1) (by omega) _ _ m v hm hv hq
    refine ⟨⟨t.length + 1, some [], some [(x :: t).sum],
        some [((x :: t).map (fun y => y ^ 2)).sum]⟩, ?_, hm, hv, ?_, ?_⟩
    · simpa [List.length_cons] using h
    · rw [MeanState.runScalars_append, MeanState.runScalars_fresh]
    · rw [MeanState.runScalars_append, MeanState.runScalars_fresh]
  · intro hpos m v hm hv
    rw [GMeanState.grunScalars_fresh _ _ hpos] at hm hv
    have hCS : (((x :: t).map Real.log).sum) ^ 2
        ≤ ((t.length + 1 : ℕ) : ℝ) * ((x :: t).map (fun y => Real.log y ^ 2)).sum := by
      have h := sq_sum_le_length_mul_sum_sq ((x :: t).map Real.log)
      simpa only [List.map_map, Function.comp, List.length_map, List.length_cons] using h
    have hM1 : t.length + 1 = 1 →
        ((x :: t).map (fun y => Real.log y ^ 2)).sum = (((x :: t).map Real.log).sum) ^ 2 := by
      intro h1
      have ht : t = [] := List.length_eq_zero.mp (by omega)
      subst ht
      simp
    have h := GMeanState.gresume_cfg (t.length + 1) (by omega) _ _ m v hCS hM1 hm hv
    refine ⟨⟨t.length + 1, some [], some [((x :: t).map Real.log).sum],
        some [((x :: t).map (fun y => Real.log y ^ 2)).sum]⟩, ?_, hm, hv, ?_, ?_⟩
    · simpa [List.length_cons] using h
    · rw [GMeanState.grunScalars_append, GMeanState.grunScalars_fresh _ _ hpos]
    · rw [GMeanState.grunScalars_append, GMeanState.grunScalars_fresh _ _ hpos]

/-- C3: constructing the geometric estimator from a prior
`(init_count, init_value, init_var)` rebuilds the log-space accumulators as
`accum1 = init_count * log(init_value)` and
`accum2 = (init_count - 1) * init_var / exp(2*accum1/init_count)
+ accum1² / init_count`; and for a state saved from an actual run, the
reconstructed state is identical to the original, so continuing to add is
indistinguishable from never having stopped. -/
theorem C3_geometric_reconstruction :
    (∀ (c : ℤ), 0 < c → ∀ mv vv : ℝ,
      GMeanState.init none (some (.scalar mv)) (some (.scalar vv)) (some c)
        = .ok ⟨c.toNat, some [], some [(c : ℝ) * Real.log mv],
            some [((c : ℝ) - 1) * vv / Real.exp (2 * ((c : ℝ) * Real.log mv) / (c : ℝ))
              + ((c : ℝ) * Real.log mv) ^ 2 / (c : ℝ)]⟩)
    ∧ (∀ (ys : List ℝ), ys ≠ [] → (∀ x ∈ ys, 0 < x) → ∀ m v : ℝ,
      (GMeanState.runScalars .fresh ys).mean = some [m] →
      (GMeanState.runScalars .fresh ys).var = some [v] →
      GMeanState.init none (some (.scalar m)) (some (.scalar v))
          (some (ys.length : ℤ))
        = .ok (GMeanState.runScalars .fresh ys)) := by
  constructor
  · intro c hc mv vv
    have hsc : initScore (some (Value.scalar mv)) (some (Value.scalar vv)) (some c) = 3 := by
      simp [initScore, hc]
    have hc0 : c ≠ 0 := by omega
    simp only [GMeanState.init, hsc, Option.getD_some]
    rw [if_neg (by simp), if_neg hc0]
    simp [Value.data, Value.shape]
  · intro ys hys hpos m v hm hv
    obtain ⟨x, t, rfl⟩ := List.exists_cons_of_ne_nil hys
    rw [GMeanState.grunScalars_fresh _ _ hpos] at hm hv ⊢
    have hCS : (((x :: t).map Real.log).sum) ^ 2
        ≤ ((t.length + 1 : ℕ) : ℝ) * ((x :: t).map (fun y => Real.log y ^ 2)).sum := by
      have h := sq_sum_le_length_mul_sum_sq ((x :: t).map Real.log)
      simpa only [List.map_map, Function.comp, List.length_map, List.length_cons] using h
    have hM1 : t.length + 1 = 1 →
        ((x :: t).map (fun y => Real.log y ^ 2)).sum = (((x :: t).map Real.log).sum) ^ 2 := by
      intro h1
      have ht : t = [] := List.length_eq_zero.mp (by omega)
      subst ht
      simp
    have h := GMeanState.gresume_cfg (t.length + 1) (by omega) _ _ m v hCS hM1 hm hv
    simpa [List.length_cons] using h

lemma MeanState.add_err_preserves (s : MeanState) (v : Value) :
    (MeanState.add s v).2.isSome → (MeanState.add s v).1 = s := by
  rcases s with ⟨c, sh, sg, sg2⟩
  rcases sh with - | sh
  · rcases Nat.eq_zero_or_pos c with rfl | hc
    · intro herr
      exfalso
      simp [MeanState.add, MeanState.addAccum] at herr
    · rintro -
      simp only [MeanState.add]
      rw [if_neg (by omega : ¬ c = 0)]
  · by_cases hsh : sh = []
    · subst hsh
      by_cases hit : v.isIterable
      · rintro -
        simp [MeanState.add, hit]
      · rcases sg with - | a <;> rcases sg2 with - | b <;>
          simp [MeanState.add, hit, MeanState.addAccum]
    · by_cases hvs : v.shape = sh
      · rcases sg with - | a <;> rcases sg2 with - | b <;>
          simp [MeanState.add, hsh, hvs, MeanState.addAccum]
      · rintro -
        simp [MeanState.add, hsh, hvs]

lemma GMeanState.gadd_err_preserves (t : GMeanState) (w : Value) :
    (GMeanState.add t w).2.isSome → (GMeanState.add t w).1 = t := by
  by_cases hnp : ∃ x ∈ w.data, x ≤ 0
  · rintro -
    simp [GMeanState.add, hnp]
  · rcases t with ⟨c, sh, sg, sg2⟩
    rcases sh with - | sh
    · rcases Nat.eq_zero_or_pos c with rfl | hc
      · intro herr
        exfalso
        simp [GMeanState.add, hnp, GMeanState.addAccum] at herr
      · rintro -
        simp only [GMeanState.add, if_neg hnp]
        rw [if_neg (by omega : ¬ c = 0)]
    · by_cases hsh : sh = []
      · subst hsh
        by_cases hit : w.isIterable
        · rintro -
          simp [GMeanState.add, hnp, hit]
        · rcases sg with - | a <;> rcases sg2 with - | b <;>
            simp [GMeanState.add, hnp, hit, GMeanState.addAccum]
      · by_cases hvs : w.shape = sh
        · rcases sg with - | a <;> rcases sg2 with - | b <;>
            simp [GMeanState.add, hnp, hsh, hvs, GMeanState.addAccum]
        · rintro -
          simp [GMeanState.add, hnp, hsh, hvs]

/-- C4: every rejected `add` raises and is atomic: a value whose shape
disagrees with the established shape (scalar vs. array, or a different array
shape) is rejected, a value with a non-positive element is rejected by the
geometric estimator, and every rejected call leaves the state — count and
both accumulators — exactly as it was. -/
theorem C4_rejected_add_atomic (s : MeanState) (t : GMeanState) (v w : Value) :
    (((s.shape = some [] ∧ v.isIterable = true) ∨
        (∃ sh, s.shape = some sh ∧ sh ≠ [] ∧ v.shape ≠ sh)) →
      (MeanState.add s v).2.isSome)
    ∧ ((MeanState.add s v).2.isSome → (MeanState.add s v).1 = s)
    ∧ (((t.shape = some [] ∧ w.isIterable = true) ∨
        (∃ sh, t.shape = some sh ∧ sh ≠ [] ∧ w.shape ≠ sh)) →
      (GMeanState.add t w).2.isSome)
    ∧ ((∃ x ∈ w.data, x ≤ 0) → (GMeanState.add t w).2.isSome)
    ∧ ((GMeanState.add t w).2.isSome → (GMeanState.add t w).1 = t) := by
  refine ⟨?_, MeanState.add_err_preserves s v, ?_, ?_,
    GMeanState.gadd_err_preserves t w⟩
  · rintro (⟨hsh, hit⟩ | ⟨sh, hsh, hne, hvs⟩)
    · simp [MeanState.add, hsh, hit]
    · simp [MeanState.add, hsh, hne, hvs]
  · rintro (⟨hsh, hit⟩ | ⟨sh, hsh, hne, hvs⟩) <;> by_cases hnp : ∃ x ∈ w.data, x ≤ 0
    · simp [GMeanState.add, hnp]
    · simp [GMeanState.add, hnp, hsh, hit]
    · simp [GMeanState.add, hnp]
    · simp [GMeanState.add, hnp, hsh, hne, hvs]
  · intro hnp
    simp [GMeanState.add, hnp]

/-- Witness for C4 at concrete inputs: a scalar-configured arithmetic state
rejecting an array, and a geometric estimator rejecting `-1`. -/
theorem C4_rejected_add_atomic_witness :
    ((((⟨1, some [], some [0], some [0]⟩ : MeanState).shape = some []
        ∧ (Value.tensor [2] [1, 1]).isIterable = true) ∨
      (∃ sh, (⟨1, some [], some [0], some [0]⟩ : MeanState).shape = some sh
        ∧ sh ≠ [] ∧ (Value.tensor [2] [1, 1]).shape ≠ sh))
    ∧ (∃ x ∈ (Value.scalar (-1)).data, x ≤ 0))
    ∧ (MeanState.add ⟨1, some [], some [0], some [0]⟩ (.tensor [2] [1, 1])).2.isSome
    ∧ (GMeanState.add ⟨1, some [], some [0], some [0]⟩ (.scalar (-1))).2.isSome := by
  have h1 : ((⟨1, some [], some [0], some [0]⟩ : MeanState).shape = some []
      ∧ (Value.tensor [2] [1, 1]).isIterable = true) ∨
      (∃ sh, (⟨1, some [], some [0], some [0]⟩ : MeanState).shape = some sh
        ∧ sh ≠ [] ∧ (Value.tensor [2] [1, 1]).shape ≠ sh) :=
    Or.inl ⟨rfl, rfl⟩
  have h2 : ∃ x ∈ (Value.scalar (-1)).data, x ≤ 0 := by
    refine ⟨-1, by simp [Value.data], by norm_num⟩
  exact ⟨⟨h1, h2⟩,
    (C4_rejected_add_atomic ⟨1, some [], some [0], some [0]⟩
      ⟨1, some [], some [0], some [0]⟩ (.tensor [2] [1, 1]) (.scalar (-1))).1 h1,
    (C4_rejected_add_atomic ⟨1, some [], some [0], some [0]⟩
      ⟨1, some [], some [0], some [0]⟩ (.tensor [2] [1, 1]) (.scalar (-1))).2.2.2.1 h2⟩

/-- C5 counterexample: `init_count = 0` is supplied while `init_value` and
`init_var` are not — a partial triple — yet construction succeeds (the
constructor counts `init_count` as supplied only when it is positive), so the
claim "one or two supplied without the rest fails with a configuration error"
is false at this input. -/
theorem C5_counterexample_count_zero :
    MeanState.init none none none (some 0) = .ok ⟨0, none, none, none⟩
    ∧ GMeanState.init none none none (some 0) = .ok ⟨0, none, none, none⟩ := by
  constructor <;> simp [MeanState.init, GMeanState.init, initScore]

/-- C5 (amended): with `init_count` counting as supplied only when positive,
a supplied-score of 1 or 2 fails with the configuration error; score 3
succeeds given otherwise valid arguments (well-formed `init_value`/`init_var`
of equal shape — on mismatched array shapes the source instead raises a
numpy broadcast error, which this model does not render); score 0 succeeds
when `init_count` is absent or zero, and fails with a type error (not a
configuration error) when `init_count` is negative. -/
theorem C5_all_or_nothing_triple (shape : Option (List ℕ))
    (iv ivar : Option Value) (ic : Option ℤ) :
    ((initScore iv ivar ic = 1 ∨ initScore iv ivar ic = 2) →
      MeanState.init shape iv ivar ic = .error .configError
      ∧ GMeanState.init shape iv ivar ic = .error .configError)
    ∧ (initScore iv ivar ic = 3 →
      (∀ va wa, iv = some va → ivar = some wa →
        va.shape = wa.shape ∧ va.data.length = numel va.shape
          ∧ wa.data.length = numel wa.shape) →
      (∃ s, MeanState.init shape iv ivar ic = .ok s)
      ∧ (∃ t, GMeanState.init shape iv ivar ic = .ok t))
    ∧ (initScore iv ivar ic = 0 → ic.getD 0 = 0 →
      MeanState.init shape iv ivar ic = .ok ⟨0, shape, none, none⟩
      ∧ GMeanState.init shape iv ivar ic = .ok ⟨0, shape, none, none⟩)
    ∧ (initScore iv ivar ic = 0 → ic.getD 0 ≠ 0 →
      MeanState.init shape iv ivar ic = .error .typeError
      ∧ GMeanState.init shape iv ivar ic = .error .typeError) := by
  refine ⟨?_, ?_, ?_, ?_⟩
  · intro h12
    have hnot : initScore iv ivar ic ∉ ([0, 3] : List ℕ) := by
      rcases h12 with h | h <;> simp [h]
    constructor
    · simp only [MeanState.init]
      rw [if_pos hnot]
    · simp only [GMeanState.init]
      rw [if_pos hnot]
  · rintro h3 -
    have hin : ¬ initScore iv ivar ic ∉ ([0, 3] : List ℕ) := by simp [h3]
    have hc : 0 < ic.getD 0 := by
      by_contra hc
      rcases iv with - | va <;> rcases ivar with - | wa <;>
        simp [initScore, hc] at h3
    have hc0 : ic.getD 0 ≠ 0 := by omega
    rcases iv with - | va
    · exfalso
      rcases ivar with - | wa <;> simp [initScore, hc] at h3
    · rcases ivar with - | wa
      · exfalso
        simp [initScore, hc] at h3
      · constructor
        · simp only [MeanState.init]
          rw [if_neg hin, if_neg hc0]
          exact ⟨_, rfl⟩
        · simp only [GMeanState.init]
          rw [if_neg hin, if_neg hc0]
          exact ⟨_, rfl⟩
  · intro h0 hic
    have hin : ¬ initScore iv ivar ic ∉ ([0, 3] : List ℕ) := by simp [h0]
    constructor
    · simp only [MeanState.init]
      rw [if_neg hin, if_pos hic]
    · simp only [GMeanState.init]
      rw [if_neg hin, if_pos hic]
  · intro h0 hic
    have hin : ¬ initScore iv ivar ic ∉ ([0, 3] : List ℕ) := by simp [h0]
    have hiv : iv = none := by
      rcases iv with - | va
      · rfl
      · rcases ivar with - | wa <;> by_cases hc : 0 < ic.getD 0 <;>
          simp [initScore, hc] at h0
    have hivar : ivar = none := by
      rcases ivar with - | wa
      · rfl
      · rcases iv with - | va <;> by_cases hc : 0 < ic.getD 0 <;>
          simp [initScore, hc] at h0
    subst hiv
    subst hivar
    constructor
    · simp only [MeanState.init]
      rw [if_neg hin, if_neg hic]
    · simp only [GMeanState.init]
      rw [if_neg hin, if_neg hic]

/-- Witness for C5 (amended) at concrete inputs: `init_count = 5` alone is
score 1 and fails with the configuration error. -/
theorem C5_all_or_nothing_triple_witness :
    (initScore none none (some 5) = 1 ∨ initScore none none (some 5) = 2)
    ∧ MeanState.init none none none (some 5) = .error .configError
    ∧ GMeanState.init none none none (some 5) = .error .configError := by
  have h1 : initScore none none (some 5) = 1 ∨ initScore none none (some 5) = 2 := by
    left
    simp [initScore]
  exact ⟨h1, (C5_all_or_nothing_triple none none none (some 5)).1 h1⟩

/-- C6: the standard-error accessors: for `count ≥ 1` the arithmetic
estimator returns `sqrt(variance()/count)` elementwise and the geometric
estimator returns `std()/sqrt(count - 1)` elementwise; for `count < 1` both
return the unavailable result. -/
theorem C6_stderr_formulas (s : MeanState) (t : GMeanState) :
    (1 ≤ s.count →
      s.stderr = (s.var).map (fun l => l.map (fun x => Real.sqrt (x / (s.count : ℝ)))))
    ∧ (s.count < 1 → s.stderr = none)
    ∧ (1 ≤ t.count →
      t.stderr = (t.std).map (fun l => l.map (fun x => x / Real.sqrt ((t.count : ℝ) - 1))))
    ∧ (t.count < 1 → t.stderr = none) := by
  refine ⟨?_, ?_, ?_, ?_⟩
  · intro h
    cases hvar : s.var <;>
      simp [MeanState.stderr, hvar, show ¬ s.count < 1 by omega]
  · intro h
    have h0 : s.count = 0 := by omega
    simp [MeanState.stderr, MeanState.var, h0]
  · intro h
    cases hvar : t.var <;>
      simp [GMeanState.stderr, GMeanState.std, hvar, show ¬ t.count < 1 by omega]
  · intro h
    have h0 : t.count = 0 := by omega
    simp [GMeanState.stderr, GMeanState.var, h0]

/-- Witness for C6 at a concrete input: a one-observation arithmetic state and
a one-observation geometric state. -/
theorem C6_stderr_formulas_witness :
    (1 ≤ (⟨1, some [], some [2], some [4]⟩ : MeanState).count
      ∧ (⟨1, some [], some [2], some [4]⟩ : MeanState).stderr
        = ((⟨1, some [], some [2], some [4]⟩ : MeanState).var).map
            (fun l => l.map (fun x => Real.sqrt (x / ((1 : ℕ) : ℝ)))))
    ∧ (1 ≤ (⟨1, some [], some [0], some [0]⟩ : GMeanState).count
      ∧ (⟨1, some [], some [0], some [0]⟩ : GMeanState).stderr
        = ((⟨1, some [], some [0], some [0]⟩ : GMeanState).std).map
            (fun l => l.map (fun x => x / Real.sqrt (((1 : ℕ) : ℝ) - 1)))) :=
  ⟨⟨le_refl 1,
    (C6_stderr_formulas ⟨1, some [], some [2], some [4]⟩
      ⟨1, some [], some [0], some [0]⟩).1 (le_refl 1)⟩,
   ⟨le_refl 1,
    (C6_stderr_formulas ⟨1, some [], some [2], some [4]⟩
      ⟨1, some [], some [0], some [0]⟩).2.2.1 (le_refl 1)⟩⟩

/-- C7: with `count == 0` every derived-quantity accessor — `mean`, `var`,
`std`, `stderr` and the `mspair` pair — returns the explicit unavailable
result (`None`) for both estimators, rather than raising or returning a
number. -/
theorem C7_count_zero_unavailable (s : MeanState) (t : GMeanState)
    (hs : s.count = 0) (ht : t.count = 0) :
    s.mean = none ∧ s.var = none ∧ s.std = none ∧ s.stderr = none
    ∧ s.mspair = (none, none)
    ∧ t.mean = none ∧ t.var = none ∧ t.std = none ∧ t.stderr = none
    ∧ t.mspair = (none, none) := by
  refine ⟨?_, ?_, ?_, ?_, ?_, ?_, ?_, ?_, ?_, ?_⟩ <;>
    simp [MeanState.mean, MeanState.var, MeanState.std, MeanState.stderr,
      MeanState.mspair, GMeanState.mean, GMeanState.var, GMeanState.std,
      GMeanState.stderr, GMeanState.mspair, hs, ht]

/-- Witness for C7 at the fresh states. -/
theorem C7_count_zero_unavailable_witness :
    (MeanState.fresh.count = 0 ∧ GMeanState.fresh.count = 0)
    ∧ MeanState.fresh.mean = none ∧ GMeanState.fresh.mean = none :=
  ⟨⟨rfl, rfl⟩,
    (C7_count_zero_unavailable .fresh .fresh rfl rfl).1,
    (C7_count_zero_unavailable .fresh .fresh rfl rfl).2.2.2.2.2.1⟩

lemma ite_pos_eq_max (r : ℝ) : (if 0 < r then r else 0) = max 0 r := by
  rcases le_or_lt r 0 with h | h
  · rw [if_neg (not_lt.mpr h), max_eq_left h]
  · rw [if_pos h, max_eq_right h.le]

lemma ite_neg_eq_max (r : ℝ) : (if r < 0 then 0 else r) = max 0 r := by
  rcases lt_or_le r 0 with h | h
  · rw [if_pos h, max_eq_left h.le]
  · rw [if_neg (not_lt.mpr h), max_eq_right h]

/-- Every list `gMean.var` ever returns is elementwise non-negative. -/
lemma GMeanState.var_nonneg (t : GMeanState) (l : List ℝ) (hl : t.var = some l) :
    ∀ r ∈ l, 0 ≤ r := by
  intro r hr
  rcases t with ⟨c, sh, sg, sg2⟩
  by_cases hc : c = 0
  · simp [GMeanState.var, hc] at hl
  · by_cases h1 : 1 < c
    · rcases sg with - | g
      · simp [GMeanState.var, hc, h1] at hl
      · rcases sg2 with - | g2
        · simp [GMeanState.var, hc, h1] at hl
        · by_cases hsh : sh = some []
          · simp only [GMeanState.var, if_neg hc, if_pos h1, if_pos hsh,
              Option.some.injEq] at hl
            subst hl
            obtain ⟨y, -, rfl⟩ := List.mem_map.mp hr
            rw [ite_pos_eq_max]
            exact le_max_left 0 y
          · simp only [GMeanState.var, if_neg hc, if_pos h1, if_neg hsh,
              Option.some.injEq] at hl
            subst hl
            obtain ⟨y, -, rfl⟩ := List.mem_map.mp hr
            rw [ite_neg_eq_max]
            exact le_max_left 0 y
    · rcases sg with - | g
      · simp [GMeanState.var, hc, h1] at hl
      · simp only [GMeanState.var, if_neg hc, if_neg h1, Option.map_some',
          Option.some.injEq] at hl
        subst hl
        obtain ⟨y, -, rfl⟩ := List.mem_map.mp hr
        exact le_refl 0

/-- C8: for every sequence of positive values fed to the geometric estimator,
`variance()` never returns a negative element; and for `count > 1` the
returned value is exactly the raw unstable recurrence clamped elementwise at
zero (both the scalar and the array branch compute `max 0 ·`). -/
theorem C8_variance_clamped_nonneg (xs : List ℝ) (_hpos : ∀ x ∈ xs, 0 < x) :
    (∀ l, (GMeanState.runScalars .fresh xs).var = some l → ∀ r ∈ l, 0 ≤ r)
    ∧ (∀ (t : GMeanState) (g g2 : List ℝ), 1 < t.count → t.gamma = some g →
        t.gamma2 = some g2 →
        t.var = some ((GMeanState.rawVar t.count g g2).map (fun r => max 0 r))) := by
  constructor
  · intro l hl
    exact GMeanState.var_nonneg _ l hl
  · intro t g g2 h1 hg hg2
    rcases t with ⟨c, sh, sg, sg2⟩
    simp only at hg hg2 h1
    subst hg
    subst hg2
    have hmax_pos : (fun r : ℝ => if 0 < r then r else 0) = fun r => max 0 r :=
      funext ite_pos_eq_max
    have hmax_neg : (fun r : ℝ => if r < 0 then 0 else r) = fun r => max 0 r :=
      funext ite_neg_eq_max
    by_cases hsh : sh = some []
    · simp only [GMeanState.var, if_neg (by omega : ¬ c = 0), if_pos h1, if_pos hsh,
        hmax_pos]
    · simp only [GMeanState.var, if_neg (by omega : ¬ c = 0), if_pos h1, if_neg hsh,
        hmax_neg]

/-- Witness for C8 at a concrete run. -/
theorem C8_variance_clamped_nonneg_witness :
    (∀ x ∈ ([1, 2] : List ℝ), 0 < x)
    ∧ (∀ l, (GMeanState.runScalars .fresh [1, 2]).var = some l → ∀ r ∈ l, 0 ≤ r) := by
  have h : ∀ x ∈ ([1, 2] : List ℝ), 0 < x := by
    intro x hx
    simp only [List.mem_cons, List.not_mem_nil, or_false] at hx
    rcases hx with rfl | rfl <;> norm_num
  exact ⟨h, (C8_variance_clamped_nonneg [1, 2] h).1⟩

/-- C9: the confidence-interval accessor supports only order 1: any other
order fails with the assertion error, and order 1 returns the pair
`(stderr(), stderr())`, for both estimators. -/
theorem C9_ci_order_one_only (s : MeanState) (t : GMeanState) (n : ℤ) :
    (n ≠ 1 → s.ci n = .error .assertionError ∧ t.ci n = .error .assertionError)
    ∧ s.ci 1 = .ok (s.stderr, s.stderr)
    ∧ t.ci 1 = .ok (t.stderr, t.stderr) :=
  ⟨fun h => ⟨by simp [MeanState.ci, h], by simp [GMeanState.ci, h]⟩,
    by simp [MeanState.ci], by simp [GMeanState.ci]⟩

/-- Witness for C9 at order 2. -/
theorem C9_ci_order_one_only_witness :
    (2 : ℤ) ≠ 1
    ∧ MeanState.fresh.ci 2 = .error .assertionError
    ∧ GMeanState.fresh.ci 2 = .error .assertionError :=
  ⟨by decide, (C9_ci_order_one_only .fresh .fresh 2).1 (by decide)⟩

/-- C10: an estimator constructed fresh with an explicit `shape` and no
resumption triple never allocates its accumulators, so every subsequent
`add` raises — even with a matching shape — leaving the state unchanged, and
the count stays 0 after any sequence of `add` calls.  Both estimators. -/
theorem C10_explicit_shape_never_accepts (sh : List ℕ) :
    MeanState.init (some sh) none none none = .ok ⟨0, some sh, none, none⟩
    ∧ GMeanState.init (some sh) none none none = .ok ⟨0, some sh, none, none⟩
    ∧ (∀ v : Value, ((⟨0, some sh, none, none⟩ : MeanState).add v).2.isSome
        ∧ ((⟨0, some sh, none, none⟩ : MeanState).add v).1 = ⟨0, some sh, none, none⟩)
    ∧ (∀ w : Value, ((⟨0, some sh, none, none⟩ : GMeanState).add w).2.isSome
        ∧ ((⟨0, some sh, none, none⟩ : GMeanState).add w).1 = ⟨0, some sh, none, none⟩)
    ∧ (∀ vs : List Value,
        MeanState.runValues ⟨0, some sh, none, none⟩ vs = ⟨0, some sh, none, none⟩)
    ∧ (∀ ws : List Value,
        GMeanState.runValues ⟨0, some sh, none, none⟩ ws = ⟨0, some sh, none, none⟩) := by
  have hM : ∀ v : Value, ((⟨0, some sh, none, none⟩ : MeanState).add v).2.isSome
      ∧ ((⟨0, some sh, none, none⟩ : MeanState).add v).1 = ⟨0, some sh, none, none⟩ := by
    intro v
    by_cases hsh : sh = []
    · subst hsh
      by_cases hit : v.isIterable <;>
        simp [MeanState.add, MeanState.addAccum, hit]
    · by_cases hvs : v.shape = sh <;>
        simp [MeanState.add, MeanState.addAccum, hsh, hvs]
  have hG : ∀ w : Value, ((⟨0, some sh, none, none⟩ : GMeanState).add w).2.isSome
      ∧ ((⟨0, some sh, none, none⟩ : GMeanState).add w).1 = ⟨0, some sh, none, none⟩ := by
    intro w
    by_cases hnp : ∃ x ∈ w.data, x ≤ 0
    · simp [GMeanState.add, hnp]
    · by_cases hsh : sh = []
      · subst hsh
        by_cases hit : w.isIterable <;>
          simp [GMeanState.add, GMeanState.addAccum, hnp, hit]
      · by_cases hvs : w.shape = sh <;>
          simp [GMeanState.add, GMeanState.addAccum, hnp, hsh, hvs]
  refine ⟨by simp [MeanState.init, initScore], by simp [GMeanState.init, initScore],
    hM, hG, ?_, ?_⟩
  · intro vs
    induction vs with
    | nil => rfl
    | cons v vs ih =>
      simp only [MeanState.runValues, List.foldl_cons] at ih ⊢
      rw [(hM v).2, ih]
  · intro ws
    induction ws with
    | nil => rfl
    | cons w ws ih =>
      simp only [GMeanState.runValues, List.foldl_cons] at ih ⊢
      rw [(hG w).2, ih]

/-- Witness for C1 at the concrete sequence `[1, 2, 3]`. -/
theorem C1_online_equals_batch_witness :
    ([1, 2, 3] : List ℝ) ≠ []
    ∧ (MeanState.runScalars .fresh [1, 2, 3]).mean = some [batchMean [1, 2, 3]]
    ∧ (MeanState.runScalars .fresh [1, 2, 3]).var = some [batchVar [1, 2, 3]] := by
  have hne : ([1, 2, 3] : List ℝ) ≠ [] := by simp
  have h := C1_online_equals_batch [1, 2, 3] hne
  exact ⟨hne, h.1, h.2.1⟩

/-- Witness for C2: chunk `[2]` then chunk `[3]` for the arithmetic
estimator. -/
theorem C2_resumption_equivalence_witness :
    (([2] : List ℝ) ≠ []
      ∧ (MeanState.runScalars .fresh [2]).mean = some [2]
      ∧ (MeanState.runScalars .fresh [2]).var = some [0])
    ∧ (∃ s2, MeanState.init none (some (.scalar 2)) (some (.scalar 0))
          (some (([2] : List ℝ).length : ℤ)) = .ok s2
        ∧ s2.mean = some [2] ∧ s2.var = some [0]
        ∧ (MeanState.runScalars s2 [3]).mean
            = (MeanState.runScalars .fresh ([2] ++ [3])).mean
        ∧ (MeanState.runScalars s2 [3]).var
            = (MeanState.runScalars .fresh ([2] ++ [3])).var) := by
  have hne : ([2] : List ℝ) ≠ [] := by simp
  have hm : (MeanState.runScalars .fresh [2]).mean = some [2] := by
    rw [MeanState.runScalars_fresh]
    simp [MeanState.mean]
  have hv : (MeanState.runScalars .fresh [2]).var = some [0] := by
    rw [MeanState.runScalars_fresh]
    simp [MeanState.var]
  exact ⟨⟨hne, hm, hv⟩, (C2_resumption_equivalence [2] [3] hne).1 2 0 hm hv⟩

/-- Witness for C3 at the concrete triple `(2, 2, 1)`. -/
theorem C3_geometric_reconstruction_witness :
    (0 : ℤ) < 2
    ∧ GMeanState.init none (some (.scalar 2)) (some (.scalar 1)) (some 2)
      = .ok ⟨(2 : ℤ).toNat, some [], some [((2 : ℤ) : ℝ) * Real.log 2],
          some [(((2 : ℤ) : ℝ) - 1) * 1
              / Real.exp (2 * (((2 : ℤ) : ℝ) * Real.log 2) / ((2 : ℤ) : ℝ))
            + (((2 : ℤ) : ℝ) * Real.log 2) ^ 2 / ((2 : ℤ) : ℝ)]⟩ :=
  ⟨by decide, C3_geometric_reconstruction.1 2 (by decide) 2 1⟩

end Oalg
